/-
Verification development for the charged-particle radiography engine
(PlasmaPy synthetic_radiography: Tracker, add_wire_mesh, run,
synthetic_radiograph), shallowly embedded in Lean 4.

The repository ships only the tutorial notebooks; the engine itself is
absent, so the operational definitions below are modelled from the
specification and from the behaviour documented in the notebook
(docs/notebooks/diagnostics/charged_particle_radiography_particle_tracing_wire_mesh.ipynb).
Floating-point 3-vectors are modelled over the rationals where the claims
are arithmetic/combinatorial, and over the reals where normalization
(square roots) and trigonometric sampling are essential.
-/
import Mathlib

set_option autoImplicit false

namespace Radiography

/-- Rational 3-vector standing in for the floating-point numpy 3-vectors
used by the tracer. -/
structure Vec3 where
  x : ℚ
  y : ℚ
  z : ℚ
  deriving DecidableEq

/-- Componentwise vector addition. -/
def Vec3.add (a b : Vec3) : Vec3 := ⟨a.x + b.x, a.y + b.y, a.z + b.z⟩

/-- Componentwise vector subtraction. -/
def Vec3.sub (a b : Vec3) : Vec3 := ⟨a.x - b.x, a.y - b.y, a.z - b.z⟩

/-- Scalar multiplication of a vector. -/
def Vec3.smul (c : ℚ) (a : Vec3) : Vec3 := ⟨c * a.x, c * a.y, c * a.z⟩

/-- Euclidean dot product. -/
def Vec3.dot (a b : Vec3) : ℚ := a.x * b.x + a.y * b.y + a.z * b.z

/-- Particle state: position and velocity (one species per Tracker, so
charge and mass live on the Tracker, not here). -/
structure Particle where
  pos : Vec3
  vel : Vec3
  deriving DecidableEq

/-- Modelled from the spec: the scalar-or-pair `extent` argument of
`add_wire_mesh` maps to tagged variants (a single value denotes a circular
aperture of that diameter; a pair denotes rectangular width and height). -/
inductive Aperture where
  | circular (diameter : ℚ)
  | rectangular (width height : ℚ)
  deriving DecidableEq

/-- Modelled from the spec: the scalar-or-pair `nwires` argument maps to a
uniform count or independent per-axis counts. -/
inductive WireCount where
  | uniform (n : ℕ)
  | perAxis (nh nv : ℕ)
  deriving DecidableEq

/-- Number of wires spread across the horizontal extent. -/
def WireCount.hCount : WireCount → ℕ
  | .uniform n => n
  | .perAxis nh _ => nh

/-- Number of wires spread across the vertical extent. -/
def WireCount.vCount : WireCount → ℕ
  | .uniform n => n
  | .perAxis _ nv => nv

/-- Width of the aperture bounding rectangle (diameter for a circle). -/
def Aperture.boundWidth : Aperture → ℚ
  | .circular d => d
  | .rectangular w _ => w

/-- Height of the aperture bounding rectangle (diameter for a circle). -/
def Aperture.boundHeight : Aperture → ℚ
  | .circular d => d
  | .rectangular _ h => h

/-- Modelled from the spec: a registered wire-mesh description
(`add_wire_mesh` is absent from the repository). `location` is, per the
notebook, a vector from the grid origin to the center of the mesh; the
plane basis vectors are the GeometryFrame directions unless overridden by
`mesh_hdir` / `mesh_vdir`. -/
structure MeshSpec where
  location : Vec3
  aperture : Aperture
  nwires : WireCount
  wireDiameter : ℚ
  hdir : Vec3
  vdir : Vec3
  deriving DecidableEq

/-- Modelled from the spec: wire centerlines are evenly spaced across the
aperture bounding rectangle and centered, `n` positions across a width
`w`. -/
def wireCenters (n : ℕ) (w : ℚ) : List ℚ :=
  if n = 0 then []
  else if n = 1 then [0]
  else (List.range n).map (fun i => -(w / 2) + (i : ℚ) * (w / ((n : ℚ) - 1)))

/-- Error taxonomy of the spec: degenerate geometry, invalid input, or an
operation invoked in the wrong lifecycle state. -/
inductive TrackErr where
  | geometryError
  | validationError
  | stateError
  deriving DecidableEq

/-- Modelled from the spec: the Tracker's mutable state. `axis`, `hdir`,
`vdir` are the GeometryFrame basis (unit propagation direction and
detector-plane basis), `meshes` the registered wire meshes, `particles`
the active ensemble, `hasRun` the once-only latch of `run`, and `results`
the stored terminal states of the surviving particles. -/
structure TrackerState where
  source : Vec3
  detector : Vec3
  axis : Vec3
  hdir : Vec3
  vdir : Vec3
  meshes : List MeshSpec
  particles : Option (List Particle)
  hasRun : Bool
  results : Option (List Particle)
  deriving DecidableEq

/-- Modelled from the spec: straight-line extrapolation of a particle's
original trajectory (initial position and velocity, ignoring all field
effects) to the plane at axis-distance `d` from the source. -/
def extrapolateToPlane (s axisv : Vec3) (p : Particle) (d : ℚ) : Vec3 :=
  let along := Vec3.dot (Vec3.sub p.pos s) axisv
  let vn := Vec3.dot p.vel axisv
  Vec3.add p.pos (Vec3.smul ((d - along) / vn) p.vel)

/-- Modelled from the spec and notebook: the source-to-mesh stand-off
distance actually used by the mesh filter is the axis component of the
vector from the source to the mesh center (`location` being measured from
the grid origin). -/
def standoffDistance (s : TrackerState) (m : MeshSpec) : ℚ :=
  Vec3.dot (Vec3.sub m.location s.source) s.axis

/-- Horizontal offset of the extrapolated particle position within the
mesh plane, relative to the mesh center. -/
def meshOffsetH (s : TrackerState) (m : MeshSpec) (p : Particle) : ℚ :=
  Vec3.dot (Vec3.sub (extrapolateToPlane s.source s.axis p (standoffDistance s m)) m.location) m.hdir

/-- Vertical offset of the extrapolated particle position within the mesh
plane, relative to the mesh center. -/
def meshOffsetV (s : TrackerState) (m : MeshSpec) (p : Particle) : ℚ :=
  Vec3.dot (Vec3.sub (extrapolateToPlane s.source s.axis p (standoffDistance s m)) m.location) m.vdir

/-- Modelled from the spec: a plane offset falls within `wireDiameter / 2`
of some wire centerline along either lattice axis. -/
def hitsWires (m : MeshSpec) (ho vo : ℚ) : Bool :=
  (wireCenters m.nwires.hCount m.aperture.boundWidth).any
      (fun c => decide (|ho - c| ≤ m.wireDiameter / 2))
    || (wireCenters m.nwires.vCount m.aperture.boundHeight).any
      (fun c => decide (|vo - c| ≤ m.wireDiameter / 2))

/-- Modelled from the spec: the offset falls outside the aperture boundary
(circular: radial distance beyond the radius, stated on squares to stay in
the rationals; rectangular: beyond the half-width or half-height). -/
def outsideAperture (a : Aperture) (ho vo : ℚ) : Bool :=
  match a with
  | .circular d => decide (ho ^ 2 + vo ^ 2 > (d / 2) ^ 2)
  | .rectangular w h => decide (|ho| > w / 2) || decide (|vo| > h / 2)

/-- Modelled from the spec: a particle is blocked by a mesh if its
extrapolated plane offset hits a wire or leaves the aperture. -/
def blockedBy (s : TrackerState) (m : MeshSpec) (p : Particle) : Bool :=
  hitsWires m (meshOffsetH s m p) (meshOffsetV s m p)
    || outsideAperture m.aperture (meshOffsetH s m p) (meshOffsetV s m p)

/-- Particles of `ps` surviving one mesh: those not blocked by it. -/
def meshFilter (s : TrackerState) (m : MeshSpec) (ps : List Particle) : List Particle :=
  ps.filter (fun p => !(blockedBy s m p))

/-- Modelled from the spec: meshes are evaluated independently, in
registration order; a particle blocked by any one is removed. -/
def applyMeshes (s : TrackerState) (ps : List Particle) : List Particle :=
  s.meshes.foldl (fun acc m => meshFilter s m acc) ps

/-- Source-to-detector distance along the propagation axis. -/
def detectorDistance (s : TrackerState) : ℚ :=
  Vec3.dot (Vec3.sub s.detector s.source) s.axis

/-- Terminal state of a surviving particle: its detector-plane crossing
point (exact ballistic extrapolation in the zero-field configuration the
wire-mesh notebook exercises) together with its velocity. -/
def terminalState (s : TrackerState) (p : Particle) : Particle :=
  ⟨extrapolateToPlane s.source s.axis p (detectorDistance s), p.vel⟩

/-- Modelled from the notebook: `add_wire_mesh` stores the description of
the mesh inside the Tracker object; multiple meshes can be added, and the
particles are removed when `run` is called. -/
def Tracker.addWireMesh (s : TrackerState) (m : MeshSpec) : TrackerState :=
  { s with meshes := s.meshes ++ [m] }

/-- Tracker state after a fresh ensemble `ps` is installed: the run latch
and any stored results are reset. -/
def ensembleReplaced (s : TrackerState) (ps : List Particle) : TrackerState :=
  { s with particles := some ps, hasRun := false, results := none }

/-- Tracker state after a successful `run` on ensemble `ps`: the latch is
set, the active set is compacted to the mesh survivors, and each
survivor's terminal state is stored. -/
def afterRun (s : TrackerState) (ps : List Particle) : TrackerState :=
  { s with
    hasRun := true
    particles := some (applyMeshes s ps)
    results := some ((applyMeshes s ps).map (terminalState s)) }

/-- Modelled from the spec: `create_particles` (state-machine aspect)
installs a freshly generated ensemble, resetting the run latch and any
stored results; it fails with `ValidationError` on an empty request and is
not an error when an ensemble is already loaded. -/
def Tracker.createParticles (s : TrackerState) (ps : List Particle) : Except TrackErr TrackerState :=
  if ps.isEmpty then Except.error TrackErr.validationError
  else Except.ok (ensembleReplaced s ps)

/-- Modelled from the spec: `run` may be invoked at most once per loaded
ensemble (second call fails with `StateError`); it first removes the
particles blocked by the registered meshes and then stores the terminal
state of each survivor. -/
def Tracker.run (s : TrackerState) : Except TrackErr TrackerState :=
  match s.particles with
  | none => Except.error TrackErr.stateError
  | some ps =>
    if s.hasRun then Except.error TrackErr.stateError
    else Except.ok (afterRun s ps)

/-- Warning channel of `synthetic_radiograph`. -/
inductive RadWarning where
  | noSurvivingParticles
  deriving DecidableEq

/-- Radiograph output: bin-edge sequences along h and v, the count matrix
(row-major over h-bins), and accumulated warnings. -/
structure Radiograph where
  hEdges : List ℚ
  vEdges : List ℚ
  intensity : List (List ℕ)
  warnings : List RadWarning
  deriving DecidableEq

/-- Histogram bin edges: `bins + 1` evenly spaced edges over
`[-size, size]`. -/
def binEdges (size : ℚ) (bins : ℕ) : List ℚ :=
  (List.range (bins + 1)).map (fun i => -size + (i : ℚ) * (2 * size / (bins : ℚ)))

/-- Detector-plane coordinates of a terminal particle position, via the
GeometryFrame basis centered on the detector point. -/
def detCoords (s : TrackerState) (p : Particle) : ℚ × ℚ :=
  (Vec3.dot (Vec3.sub p.pos s.detector) s.hdir, Vec3.dot (Vec3.sub p.pos s.detector) s.vdir)

/-- Number of projected points falling in histogram bin `(i, j)`. -/
def binCount (sh sv : ℚ) (nh nv : ℕ) (pts : List (ℚ × ℚ)) (i j : ℕ) : ℕ :=
  pts.countP (fun q =>
    decide (-sh + (i : ℚ) * (2 * sh / (nh : ℚ)) ≤ q.1)
      && decide (q.1 < -sh + ((i : ℚ) + 1) * (2 * sh / (nh : ℚ)))
      && decide (-sv + (j : ℚ) * (2 * sv / (nv : ℚ)) ≤ q.2)
      && decide (q.2 < -sv + ((j : ℚ) + 1) * (2 * sv / (nv : ℚ))))

/-- Intensity matrix of the radiograph: an `nh` by `nv` grid of bin
counts. -/
def intensityMatrix (sh sv : ℚ) (nh nv : ℕ) (pts : List (ℚ × ℚ)) : List (List ℕ) :=
  (List.range nh).map (fun i => (List.range nv).map (fun j => binCount sh sv nh nv pts i j))

/-- Modelled from the spec: `synthetic_radiograph` projects each surviving
particle's terminal position into detector-plane coordinates and bins them
into a 2D histogram over the requested half-extents; calling it before
`run` fails with `StateError`; with zero surviving particles it returns
the all-zero matrix of the requested shape plus a warning rather than
failing. -/
def syntheticRadiograph (s : TrackerState) (sh sv : ℚ) (nh nv : ℕ) : Except TrackErr Radiograph :=
  match s.results with
  | none => Except.error TrackErr.stateError
  | some pts =>
    Except.ok
      { hEdges := binEdges sh nh
        vEdges := binEdges sv nv
        intensity := intensityMatrix sh sv nh nv (pts.map (detCoords s))
        warnings := if pts.isEmpty then [RadWarning.noSurvivingParticles] else [] }

/-- Radiograph consisting of the requested bin edges, the all-zero
intensity matrix of the requested shape, and the zero-survivors warning. -/
def zeroRadiograph (sh sv : ℚ) (nh nv : ℕ) : Radiograph :=
  { hEdges := binEdges sh nh
    vEdges := binEdges sv nv
    intensity := (List.range nh).map (fun _ => (List.range nv).map (fun _ => 0))
    warnings := [RadWarning.noSurvivingParticles] }

/-- Signed detector-plane horizontal offset reached at axis-distance `d`
by a ballistic particle leaving the source with velocity `vel`, measured
from the axis point at that distance. -/
def ballisticOffsetH (s axisv hdirv vel : Vec3) (d : ℚ) : ℚ :=
  Vec3.dot (Vec3.sub (extrapolateToPlane s axisv ⟨s, vel⟩ d) (Vec3.add s (Vec3.smul d axisv))) hdirv

/-
Concrete sample data: the notebook's geometry (units: millimeters).
Source at (0, -10, 0), detector at (0, 200, 0), propagation axis (0,1,0),
mesh centered at (0, -2, 0), 1 mm circular aperture, 9 wires of diameter
0.02 mm.
-/

/-- Notebook source point (millimeters). -/
def nbSource : Vec3 := ⟨0, -10, 0⟩

/-- Notebook detector point (millimeters). -/
def nbDetector : Vec3 := ⟨0, 200, 0⟩

/-- Notebook propagation axis. -/
def nbAxis : Vec3 := ⟨0, 1, 0⟩

/-- Notebook horizontal basis direction. -/
def nbHdir : Vec3 := ⟨1, 0, 0⟩

/-- Notebook vertical basis direction. -/
def nbVdir : Vec3 := ⟨0, 0, 1⟩

/-- Notebook mesh: centered at (0, -2, 0), circular aperture of diameter
1 mm, 9 wires each way, wire diameter 0.02 mm. -/
def nbMesh : MeshSpec :=
  { location := ⟨0, -2, 0⟩
    aperture := Aperture.circular 1
    nwires := WireCount.uniform 9
    wireDiameter := 1 / 50
    hdir := nbHdir
    vdir := nbVdir }

/-- Axial test particle: starts at the source moving straight down the
axis, so its extrapolated mesh-plane offset is (0, 0), on the central
wire. -/
def nbAxialParticle : Particle := ⟨nbSource, nbAxis⟩

/-- Notebook Tracker state with the axial particle loaded and no mesh
registered yet. -/
def nbTracker : TrackerState :=
  { source := nbSource
    detector := nbDetector
    axis := nbAxis
    hdir := nbHdir
    vdir := nbVdir
    meshes := []
    particles := some [nbAxialParticle]
    hasRun := false
    results := none }

/-- Notebook Tracker after registering the mesh: per the notebook only
the mesh description is stored. -/
def nbMeshTracker : TrackerState := Tracker.addWireMesh nbTracker nbMesh

/-- State reached by running `nbMeshTracker`: the axial particle is
blocked by the central wire, so the active set is emptied at run time. -/
def nbRunResult : TrackerState :=
  { nbMeshTracker with hasRun := true, particles := some [], results := some [] }

/-- State reached by running `nbTracker` with no mesh: the axial particle
survives and terminates on the detector plane at (0, 200, 0). -/
def nbNoMeshRun : TrackerState :=
  { nbTracker with
    hasRun := true
    particles := some [nbAxialParticle]
    results := some [Particle.mk (Vec3.mk 0 200 0) nbAxis] }

/-- Tracker that ran to completion with zero surviving particles. -/
def nbEmptyRun : TrackerState :=
  { nbTracker with hasRun := true, particles := some [], results := some [] }

/-- Particle that clears the notebook mesh: its extrapolated mesh-plane
offset (1/16, 0) sits between wire centerlines and inside the aperture. -/
def nbPassParticle : Particle := ⟨nbSource, ⟨1 / 128, 1, 1 / 128⟩⟩

/-
Real-valued model: GeometryFrame normalization (square roots are
essential) and the direction-sampling distribution of create_particles.
-/

open scoped Classical

/-- Real 3-vector for the GeometryFrame model, where normalization
(square roots) is essential. -/
@[ext]
structure RVec3 where
  x : ℝ
  y : ℝ
  z : ℝ

/-- Dot product of real 3-vectors. -/
def dot3 (a b : RVec3) : ℝ := a.x * b.x + a.y * b.y + a.z * b.z

/-- Difference of real 3-vectors. -/
def sub3 (a b : RVec3) : RVec3 := ⟨a.x - b.x, a.y - b.y, a.z - b.z⟩

/-- Scalar multiple of a real 3-vector. -/
def smul3 (c : ℝ) (a : RVec3) : RVec3 := ⟨c * a.x, c * a.y, c * a.z⟩

/-- Cross product of real 3-vectors. -/
def cross3 (a b : RVec3) : RVec3 :=
  ⟨a.y * b.z - a.z * b.y, a.z * b.x - a.x * b.z, a.x * b.y - a.y * b.x⟩

/-- Zero real 3-vector. -/
def zero3 : RVec3 := ⟨0, 0, 0⟩

/-- Primary global reference axis used for the default horizontal
direction. -/
def refAxis1 : RVec3 := ⟨1, 0, 0⟩

/-- Secondary (fallback) global reference axis. -/
def refAxis2 : RVec3 := ⟨0, 1, 0⟩

/-- Normalization to unit length, dividing by the Euclidean norm. -/
noncomputable def normalize3 (v : RVec3) : RVec3 :=
  smul3 (1 / Real.sqrt (dot3 v v)) v

/-- Component of `a` orthogonal to `n`: the projection of `a` off `n`. -/
def projOff (a n : RVec3) : RVec3 := sub3 a (smul3 (dot3 a n) n)

/-- Unit-length predicate, stated on the dot product. -/
def unit3 (v : RVec3) : Prop := dot3 v v = 1

/-- Orthonormal projection basis derived from the source and detector
points. -/
structure Frame where
  n : RVec3
  h : RVec3
  v : RVec3

/-- Modelled from the spec: the horizontal direction of the frame. A
supplied one is projected off `n` and normalized, failing with
`GeometryError` when parallel to `n`; the default projects the primary
reference axis onto the plane orthogonal to `n`, falling back to the
secondary axis when the primary is parallel to `n`. -/
noncomputable def chooseH (n : RVec3) (hOpt : Option RVec3) : Except TrackErr RVec3 :=
  match hOpt with
  | none =>
    if projOff refAxis1 n = zero3 then Except.ok (normalize3 (projOff refAxis2 n))
    else Except.ok (normalize3 (projOff refAxis1 n))
  | some hs =>
    if projOff hs n = zero3 then Except.error TrackErr.geometryError
    else Except.ok (normalize3 (projOff hs n))

/-- Modelled from the spec: the vertical direction of the frame. A
supplied one is projected off `n` only (deliberately not off `h`) and
normalized, failing when parallel to `n`; the default is
`normalize (cross n h)`. -/
noncomputable def chooseV (n h : RVec3) (vOpt : Option RVec3) : Except TrackErr RVec3 :=
  match vOpt with
  | none => Except.ok (normalize3 (cross3 n h))
  | some vs =>
    if projOff vs n = zero3 then Except.error TrackErr.geometryError
    else Except.ok (normalize3 (projOff vs n))

/-- Modelled from the spec: GeometryFrame construction (the engine is
absent from the repository). Fails with `GeometryError` when the source
and detector coincide; otherwise the normal is
`normalize (detector - source)` and the h/v directions come from
`chooseH` / `chooseV`. -/
noncomputable def buildFrame (s0 d0 : RVec3) (hOpt vOpt : Option RVec3) :
    Except TrackErr Frame :=
  if s0 = d0 then Except.error TrackErr.geometryError
  else
    let n := normalize3 (sub3 d0 s0)
    match chooseH n hOpt with
    | Except.error e => Except.error e
    | Except.ok h =>
      match chooseV n h vOpt with
      | Except.error e => Except.error e
      | Except.ok v => Except.ok ⟨n, h, v⟩

/-- Sample source point for the frame construction. -/
def nbRS : RVec3 := ⟨0, 0, 0⟩

/-- Sample detector point for the frame construction. -/
def nbRD : RVec3 := ⟨0, 3, 0⟩

/-- Frame produced for the sample points with no overrides. -/
def nbFrame : Frame := ⟨⟨0, 1, 0⟩, ⟨1, 0, 0⟩, ⟨0, 0, -1⟩⟩

/-- Sample user-supplied horizontal direction, orthogonal to the axis and
of length 2. -/
def nbHs : RVec3 := ⟨2, 0, 0⟩

/-- Sample user-supplied vertical direction, orthogonal to the axis and
of length 5. -/
def nbVs : RVec3 := ⟨0, 0, 5⟩

/-- Frame produced for the sample points with both overrides supplied. -/
def nbFrameOv : Frame := ⟨⟨0, 1, 0⟩, ⟨1, 0, 0⟩, ⟨0, 0, 1⟩⟩

/-- Modelled from the spec: the polar-angle probability density used by
`create_particles` for directions within the cone of half-angle
`thetaMax`, with weight proportional to the sine of the polar angle
(uniform in solid angle). -/
noncomputable def thetaPdf (thetaMax t : ℝ) : ℝ :=
  Real.sin t / (1 - Real.cos thetaMax)

/-- Solid angle subtended by a cone of half-angle `t`. -/
noncomputable def solidAngleOfCone (t : ℝ) : ℝ :=
  2 * Real.pi * (1 - Real.cos t)

/-- Modelled from the spec: the azimuthal angle of a sampled direction,
drawn uniformly over `[0, 2 * pi)` from a uniform seed `u` in `[0, 1)`. -/
noncomputable def phiSample (u : ℝ) : ℝ := 2 * Real.pi * u

/-! Theorems. -/

/-- Inversion of a successful `run`: the ensemble was loaded, the latch
was clear, and the result state is `afterRun` on that ensemble. -/
theorem run_ok_inv (s t : TrackerState) (h : Tracker.run s = Except.ok t) :
    ∃ ps, s.particles = some ps ∧ s.hasRun = false ∧ t = afterRun s ps := by
  cases hp : s.particles with
  | none => simp [Tracker.run, hp] at h
  | some ps =>
    by_cases hr : s.hasRun
    · simp [Tracker.run, hp, hr] at h
    · refine ⟨ps, rfl, by simpa using hr, ?_⟩
      simp [Tracker.run, hp, hr] at h
      exact h.symm

/-- Claim C5: a second invocation of run without reloading particles
raises StateError. -/
theorem claim5_run_twice_state_error (s t : TrackerState)
    (h : Tracker.run s = Except.ok t) :
    Tracker.run t = Except.error TrackErr.stateError := by
  obtain ⟨ps, hp, hr, rfl⟩ := run_ok_inv s t h
  simp [Tracker.run, afterRun]

/-- Claim C5 witness: the concrete notebook tracker runs once
successfully and errors with StateError on the second run. -/
theorem claim5_run_twice_state_error_witness :
    Tracker.run nbTracker = Except.ok nbNoMeshRun ∧
    Tracker.run nbNoMeshRun = Except.error TrackErr.stateError := by
  have h2 : Tracker.run nbTracker = Except.ok nbNoMeshRun := by
    norm_num [Tracker.run, afterRun, applyMeshes, nbTracker, nbNoMeshRun,
      terminalState, extrapolateToPlane, detectorDistance, Vec3.dot, Vec3.sub,
      Vec3.add, Vec3.smul, nbSource, nbDetector, nbAxis, nbAxialParticle]
  exact ⟨h2, claim5_run_twice_state_error nbTracker nbNoMeshRun h2⟩


/-- Claim C1 (amended): add_wire_mesh stores the mesh description in the
Tracker, leaving the active-particle set unchanged; the particles blocked
by the registered meshes are removed when run is invoked. -/
theorem claim1_add_wire_mesh_defers_pruning_to_run (s : TrackerState) (m : MeshSpec)
    (ps : List Particle) (t : TrackerState)
    (hps : s.particles = some ps) (hrun : Tracker.run s = Except.ok t) :
    (Tracker.addWireMesh s m).particles = s.particles ∧
    (Tracker.addWireMesh s m).meshes = s.meshes ++ [m] ∧
    t.particles = some (applyMeshes s ps) ∧
    t.results = some ((applyMeshes s ps).map (terminalState s)) := by
  obtain ⟨ps2, hp2, hr, rfl⟩ := run_ok_inv s t hrun
  rw [hps] at hp2
  obtain rfl : ps = ps2 := by injection hp2
  exact ⟨rfl, rfl, rfl, rfl⟩

/-- Claim C1 counterexample: on the notebook configuration, the mesh
blocks the loaded axial particle, yet the add_wire_mesh call leaves the
active-particle set unchanged; the particle is removed only by run. The
claim that add_wire_mesh itself immediately prunes the active set is
therefore false. -/
theorem claim1_counterexample :
    blockedBy nbMeshTracker nbMesh nbAxialParticle = true ∧
    nbMeshTracker.particles = some [nbAxialParticle] ∧
    Tracker.run nbMeshTracker = Except.ok nbRunResult ∧
    nbRunResult.particles = some [] := by
  refine ⟨?_, rfl, ?_, rfl⟩
  · norm_num [blockedBy, hitsWires, meshOffsetH, meshOffsetV, extrapolateToPlane,
      standoffDistance, Vec3.dot, Vec3.sub, Vec3.add, Vec3.smul, nbMeshTracker,
      Tracker.addWireMesh, nbTracker, nbMesh, nbSource, nbDetector, nbAxis,
      nbHdir, nbVdir, nbAxialParticle, wireCenters, WireCount.hCount,
      WireCount.vCount, Aperture.boundWidth, Aperture.boundHeight,
      List.range_succ, outsideAperture]
  · norm_num [Tracker.run, afterRun, applyMeshes, meshFilter, nbRunResult,
      blockedBy, hitsWires, meshOffsetH, meshOffsetV, extrapolateToPlane,
      standoffDistance, Vec3.dot, Vec3.sub, Vec3.add, Vec3.smul, nbMeshTracker,
      Tracker.addWireMesh, nbTracker, nbMesh, nbSource, nbDetector, nbAxis,
      nbHdir, nbVdir, nbAxialParticle, wireCenters, WireCount.hCount,
      WireCount.vCount, Aperture.boundWidth, Aperture.boundHeight,
      List.range_succ, outsideAperture, terminalState, detectorDistance]

/-- Claim C1 witness: the amended statement applied to the concrete
notebook tracker. -/
theorem claim1_add_wire_mesh_defers_pruning_to_run_witness :
    nbTracker.particles = some [nbAxialParticle] ∧
    Tracker.run nbTracker = Except.ok nbNoMeshRun ∧
    ((Tracker.addWireMesh nbTracker nbMesh).particles = nbTracker.particles ∧
      (Tracker.addWireMesh nbTracker nbMesh).meshes = nbTracker.meshes ++ [nbMesh] ∧
      nbNoMeshRun.particles = some (applyMeshes nbTracker [nbAxialParticle]) ∧
      nbNoMeshRun.results =
        some ((applyMeshes nbTracker [nbAxialParticle]).map (terminalState nbTracker))) := by
  have h1 : nbTracker.particles = some [nbAxialParticle] := rfl
  have h2 : Tracker.run nbTracker = Except.ok nbNoMeshRun := by
    norm_num [Tracker.run, afterRun, applyMeshes, nbTracker, nbNoMeshRun,
      terminalState, extrapolateToPlane, detectorDistance, Vec3.dot, Vec3.sub,
      Vec3.add, Vec3.smul, nbSource, nbDetector, nbAxis, nbAxialParticle]
  exact ⟨h1, h2,
    claim1_add_wire_mesh_defers_pruning_to_run nbTracker nbMesh [nbAxialParticle] nbNoMeshRun h1 h2⟩

/-- Claim C2 counterexample: in the notebook configuration the supplied
mesh location has axis offset -2 (and magnitude 2), while the
source-to-mesh stand-off distance used by the filter is 8; the claim that
the stand-off distance equals the supplied location is false, because
location is measured from the grid origin, not from the source. -/
theorem claim2_counterexample :
    standoffDistance nbTracker nbMesh = 8 ∧
    Vec3.dot nbMesh.location nbTracker.axis = -2 ∧
    ((8 : ℚ) ≠ -2) ∧ ((8 : ℚ) ≠ 2) := by
  refine ⟨?_, ?_, by norm_num, by norm_num⟩
  · norm_num [standoffDistance, Vec3.dot, Vec3.sub, nbTracker, nbMesh, nbSource, nbAxis]
  · norm_num [Vec3.dot, nbTracker, nbMesh, nbAxis]

/-- Claim C2 (amended): the mesh location is a vector from the grid
origin to the mesh center; the source-to-mesh stand-off distance used for
extrapolation is the axis component of location minus the axis component
of the source (concretely 8 mm in the notebook, not the supplied -2 mm). -/
theorem claim2_location_measured_from_grid_origin :
    (∀ (s : TrackerState) (m : MeshSpec),
      standoffDistance s m = Vec3.dot m.location s.axis - Vec3.dot s.source s.axis) ∧
    standoffDistance nbTracker nbMesh = 8 := by
  constructor
  · intro s m
    simp only [standoffDistance, Vec3.dot, Vec3.sub]
    ring
  · norm_num [standoffDistance, Vec3.dot, Vec3.sub, nbTracker, nbMesh, nbSource, nbAxis]

/-- Claim C3: in the zero-field case the ballistic offset in the plane at
axis-distance d from the source grows linearly, so the plane offset at the
detector (distance d1 + d2) is 1 + d2 / d1 times the offset at the mesh
(distance d1); concretely with d1 = 8 and d2 = 202 the magnification is
26.25, so a mesh half-width of 1/2 mm images at 26.25 / 2 mm, and the 1 mm
mesh images at exactly 26.25 mm, within the 1 percent tolerance. -/
theorem claim3_magnification_law :
    (∀ (s axisv hdirv vel : Vec3) (d1 d2 : ℚ),
      Vec3.dot axisv hdirv = 0 → Vec3.dot vel axisv ≠ 0 → d1 ≠ 0 →
      ballisticOffsetH s axisv hdirv vel (d1 + d2) =
        (1 + d2 / d1) * ballisticOffsetH s axisv hdirv vel d1) ∧
    (1 + (202 : ℚ) / 8 = 26.25) ∧
    (ballisticOffsetH nbSource nbAxis nbHdir (Vec3.mk (1 / 16) 1 0) (8 + 202) =
      26.25 * ballisticOffsetH nbSource nbAxis nbHdir (Vec3.mk (1 / 16) 1 0) 8) ∧
    (ballisticOffsetH nbSource nbAxis nbHdir (Vec3.mk (1 / 16) 1 0) 8 = 1 / 2) ∧
    (|(26.25 : ℚ) * 1 - 26.25| ≤ (1 / 100) * 26.25) := by
  refine ⟨?_, by norm_num, ?_, ?_, by norm_num⟩
  · intro s axisv hdirv vel d1 d2 horth hvn hd1
    rcases s with ⟨sx, sy, sz⟩
    rcases axisv with ⟨ax, ay, az⟩
    rcases hdirv with ⟨hx, hy, hz⟩
    rcases vel with ⟨vx, vy, vz⟩
    simp only [ballisticOffsetH, extrapolateToPlane, Vec3.dot, Vec3.sub, Vec3.add,
      Vec3.smul] at horth hvn ⊢
    field_simp
    ring
  · norm_num [ballisticOffsetH, extrapolateToPlane, Vec3.dot, Vec3.sub, Vec3.add,
      Vec3.smul, nbSource, nbAxis, nbHdir]
  · norm_num [ballisticOffsetH, extrapolateToPlane, Vec3.dot, Vec3.sub, Vec3.add,
      Vec3.smul, nbSource, nbAxis, nbHdir]

/-- Claim C3 witness: the magnification law applied at the notebook
distances d1 = 8 and d2 = 202. -/
theorem claim3_magnification_law_witness :
    Vec3.dot nbAxis nbHdir = 0 ∧
    Vec3.dot (Vec3.mk (1 / 16) 1 0) nbAxis ≠ 0 ∧
    ((8 : ℚ) ≠ 0) ∧
    ballisticOffsetH nbSource nbAxis nbHdir (Vec3.mk (1 / 16) 1 0) (8 + 202) =
      (1 + 202 / 8) * ballisticOffsetH nbSource nbAxis nbHdir (Vec3.mk (1 / 16) 1 0) 8 := by
  have ha : Vec3.dot nbAxis nbHdir = 0 := by norm_num [Vec3.dot, nbAxis, nbHdir]
  have hb : Vec3.dot (Vec3.mk (1 / 16) 1 0) nbAxis ≠ 0 := by
    norm_num [Vec3.dot, nbAxis]
  have hc : (8 : ℚ) ≠ 0 := by norm_num
  exact ⟨ha, hb, hc,
    claim3_magnification_law.1 nbSource nbAxis nbHdir (Vec3.mk (1 / 16) 1 0) 8 202 ha hb hc⟩


/-- Claim C4: for a circular mesh of diameter D, every particle whose
extrapolated radial offset exceeds D / 2 is blocked, so no particle
surviving the mesh filter has squared radial offset beyond (D / 2)^2. -/
theorem claim4_circular_aperture_blocks_outside (s : TrackerState) (m : MeshSpec)
    (dD : ℚ) (ps : List Particle) (p : Particle)
    (hap : m.aperture = Aperture.circular dD) (hp : p ∈ meshFilter s m ps) :
    meshOffsetH s m p ^ 2 + meshOffsetV s m p ^ 2 ≤ (dD / 2) ^ 2 := by
  have hb : blockedBy s m p = false := by
    simpa using (List.mem_filter.mp hp).2
  have hout : outsideAperture m.aperture (meshOffsetH s m p) (meshOffsetV s m p) = false := by
    simp [blockedBy] at hb
    exact hb.2
  rw [hap] at hout
  simpa [outsideAperture, not_lt] using hout

/-- Claim C4 witness: a concrete particle that clears the notebook mesh
indeed has squared radial offset within the squared radius. -/
theorem claim4_circular_aperture_blocks_outside_witness :
    nbMesh.aperture = Aperture.circular 1 ∧
    nbPassParticle ∈ meshFilter nbTracker nbMesh [nbPassParticle] ∧
    meshOffsetH nbTracker nbMesh nbPassParticle ^ 2 +
        meshOffsetV nbTracker nbMesh nbPassParticle ^ 2 ≤ ((1 : ℚ) / 2) ^ 2 := by
  have hap : nbMesh.aperture = Aperture.circular 1 := rfl
  have hp : nbPassParticle ∈ meshFilter nbTracker nbMesh [nbPassParticle] := by
    have : meshFilter nbTracker nbMesh [nbPassParticle] = [nbPassParticle] := by
      norm_num [meshFilter, blockedBy, hitsWires, meshOffsetH, meshOffsetV,
        extrapolateToPlane, standoffDistance, Vec3.dot, Vec3.sub, Vec3.add,
        Vec3.smul, nbTracker, nbMesh, nbSource, nbDetector, nbAxis, nbHdir,
        nbVdir, nbPassParticle, wireCenters, WireCount.hCount, WireCount.vCount,
        Aperture.boundWidth, Aperture.boundHeight, List.range_succ,
        outsideAperture, List.filter, abs_le]
    rw [this]
    simp
  exact ⟨hap, hp,
    claim4_circular_aperture_blocks_outside nbTracker nbMesh 1 [nbPassParticle]
      nbPassParticle hap hp⟩

/-- Claim C6: with zero surviving particles, synthetic_radiograph returns
the bin edges and the all-zero intensity matrix of the requested bin
shape, together with a warning, rather than an error. -/
theorem claim6_zero_survivors_zero_matrix (s : TrackerState) (sh sv : ℚ) (nh nv : ℕ)
    (h : s.results = some []) :
    syntheticRadiograph s sh sv nh nv = Except.ok (zeroRadiograph sh sv nh nv) ∧
    (zeroRadiograph sh sv nh nv).intensity.length = nh ∧
    (∀ row ∈ (zeroRadiograph sh sv nh nv).intensity,
      row.length = nv ∧ ∀ c ∈ row, c = 0) ∧
    (zeroRadiograph sh sv nh nv).warnings = [RadWarning.noSurvivingParticles] := by
  refine ⟨?_, by simp [zeroRadiograph], ?_, rfl⟩
  · simp [syntheticRadiograph, h, zeroRadiograph, intensityMatrix, binCount]
  · intro row hrow
    simp only [zeroRadiograph, List.mem_map] at hrow
    obtain ⟨i, _, rfl⟩ := hrow
    simp

/-- Claim C6 witness: the zero-survivor tracker yields the 2 by 3 all-zero
radiograph with the warning. -/
theorem claim6_zero_survivors_zero_matrix_witness :
    nbEmptyRun.results = some [] ∧
    syntheticRadiograph nbEmptyRun 1 1 2 3 = Except.ok (zeroRadiograph 1 1 2 3) ∧
    (zeroRadiograph 1 1 2 3).warnings = [RadWarning.noSurvivingParticles] := by
  have h : nbEmptyRun.results = some [] := rfl
  have main := claim6_zero_survivors_zero_matrix nbEmptyRun 1 1 2 3 h
  exact ⟨h, main.1, main.2.2.2⟩

/-- Blocking by a mesh is monotone in the wire diameter: an offset within
half the thinner diameter of a centerline is within half the thicker. -/
theorem blockedBy_wire_diameter_mono (s : TrackerState) (m : MeshSpec) (p : Particle)
    (d1 d2 : ℚ) (hd : d1 ≤ d2)
    (hb : blockedBy s { m with wireDiameter := d1 } p = true) :
    blockedBy s { m with wireDiameter := d2 } p = true := by
  simp only [blockedBy, hitsWires, Bool.or_eq_true, List.any_eq_true,
    decide_eq_true_eq] at hb ⊢
  rcases hb with (⟨c, hc, hle⟩ | ⟨c, hc, hle⟩) | ho
  · exact Or.inl (Or.inl ⟨c, hc, le_trans hle (by linarith)⟩)
  · exact Or.inl (Or.inr ⟨c, hc, le_trans hle (by linarith)⟩)
  · exact Or.inr ho

/-- Claim C7: for a fixed mesh geometry and fixed ensemble, the
surviving-particle count after the mesh filter is monotone non-increasing
in the wire diameter. -/
theorem claim7_wire_diameter_monotone (s : TrackerState) (m : MeshSpec)
    (ps : List Particle) (d1 d2 : ℚ) (hd : d1 ≤ d2) :
    (meshFilter s { m with wireDiameter := d2 } ps).length ≤
      (meshFilter s { m with wireDiameter := d1 } ps).length := by
  unfold meshFilter
  refine List.Sublist.length_le (List.monotone_filter_right ps ?_)
  intro p hp
  simp only [Bool.not_eq_eq_eq_not, Bool.not_true] at hp ⊢
  cases hb1 : blockedBy s { m with wireDiameter := d1 } p with
  | false => rfl
  | true =>
    rw [blockedBy_wire_diameter_mono s m p d1 d2 hd hb1] at hp
    cases hp

/-- Claim C7 witness: thickening the notebook wires from 0.02 mm to
0.5 mm does not increase the survivor count of the concrete ensemble. -/
theorem claim7_wire_diameter_monotone_witness :
    ((1 : ℚ) / 50 ≤ 1 / 2) ∧
    (meshFilter nbTracker { nbMesh with wireDiameter := 1 / 2 }
        [nbAxialParticle, nbPassParticle]).length ≤
      (meshFilter nbTracker { nbMesh with wireDiameter := 1 / 50 }
        [nbAxialParticle, nbPassParticle]).length := by
  have hd : (1 : ℚ) / 50 ≤ 1 / 2 := by norm_num
  exact ⟨hd,
    claim7_wire_diameter_monotone nbTracker nbMesh [nbAxialParticle, nbPassParticle]
      (1 / 50) (1 / 2) hd⟩

/-- Claim C10: create_particles on a Tracker that already holds an
ensemble does not raise: it replaces the previous ensemble, clears the
run latch, and a subsequent run succeeds operating only on the most
recently created particles. -/
theorem claim10_create_particles_replaces (s : TrackerState) (ps0 ps1 : List Particle)
    (h0 : s.particles = some ps0) (h1 : ps1 ≠ []) :
    Tracker.createParticles s ps1 = Except.ok (ensembleReplaced s ps1) ∧
    (ensembleReplaced s ps1).particles = some ps1 ∧
    (ensembleReplaced s ps1).hasRun = false ∧
    Tracker.run (ensembleReplaced s ps1) =
      Except.ok (afterRun (ensembleReplaced s ps1) ps1) ∧
    (afterRun (ensembleReplaced s ps1) ps1).results =
      some ((applyMeshes (ensembleReplaced s ps1) ps1).map
        (terminalState (ensembleReplaced s ps1))) := by
  refine ⟨?_, rfl, rfl, ?_, rfl⟩
  · simp [Tracker.createParticles, List.isEmpty_iff, h1]
  · simp [Tracker.run, ensembleReplaced, afterRun]

/-- Claim C10 witness: recreating particles on the already-run notebook
tracker succeeds, re-enables run, and run consumes the new ensemble. -/
theorem claim10_create_particles_replaces_witness :
    nbNoMeshRun.particles = some [nbAxialParticle] ∧
    ([nbPassParticle] ≠ ([] : List Particle)) ∧
    Tracker.createParticles nbNoMeshRun [nbPassParticle] =
      Except.ok (ensembleReplaced nbNoMeshRun [nbPassParticle]) ∧
    Tracker.run (ensembleReplaced nbNoMeshRun [nbPassParticle]) =
      Except.ok (afterRun (ensembleReplaced nbNoMeshRun [nbPassParticle]) [nbPassParticle]) := by
  have h0 : nbNoMeshRun.particles = some [nbAxialParticle] := rfl
  have h1 : [nbPassParticle] ≠ ([] : List Particle) := by simp
  have main := claim10_create_particles_replaces nbNoMeshRun [nbAxialParticle]
    [nbPassParticle] h0 h1
  exact ⟨h0, h1, main.1, main.2.2.2.1⟩


/-- Dot product is linear in a difference on the left. -/
theorem dot3_sub_left (a b c : RVec3) : dot3 (sub3 a b) c = dot3 a c - dot3 b c := by
  rcases a with ⟨ax, ay, az⟩
  rcases b with ⟨bx, by0, bz⟩
  rcases c with ⟨cx, cy, cz⟩
  simp only [dot3, sub3]
  ring

/-- Dot product pulls a scalar out on the left. -/
theorem dot3_smul_left (c : ℝ) (a b : RVec3) : dot3 (smul3 c a) b = c * dot3 a b := by
  rcases a with ⟨ax, ay, az⟩
  rcases b with ⟨bx, by0, bz⟩
  simp only [dot3, smul3]
  ring

/-- Dot product pulls a scalar out on the right. -/
theorem dot3_smul_right (c : ℝ) (a b : RVec3) : dot3 a (smul3 c b) = c * dot3 a b := by
  rcases a with ⟨ax, ay, az⟩
  rcases b with ⟨bx, by0, bz⟩
  simp only [dot3, smul3]
  ring

/-- Dot product is symmetric. -/
theorem dot3_comm (a b : RVec3) : dot3 a b = dot3 b a := by
  rcases a with ⟨ax, ay, az⟩
  rcases b with ⟨bx, by0, bz⟩
  simp only [dot3]
  ring

/-- Squared norm of a nonzero vector is positive. -/
theorem dot3_self_pos (v : RVec3) (hv : v ≠ zero3) : 0 < dot3 v v := by
  rcases v with ⟨x, y, z⟩
  have hcomp : ¬(x = 0 ∧ y = 0 ∧ z = 0) := by
    intro h
    exact hv (by simp [zero3, h.1, h.2.1, h.2.2])
  simp only [dot3]
  by_contra hle
  push_neg at hle
  have hx : x = 0 := by nlinarith [mul_self_nonneg x, mul_self_nonneg y, mul_self_nonneg z]
  have hy : y = 0 := by nlinarith [mul_self_nonneg x, mul_self_nonneg y, mul_self_nonneg z]
  have hz : z = 0 := by nlinarith [mul_self_nonneg x, mul_self_nonneg y, mul_self_nonneg z]
  exact hcomp ⟨hx, hy, hz⟩

/-- Normalization yields a unit vector for any nonzero input. -/
theorem unit3_normalize (v : RVec3) (hv : v ≠ zero3) : unit3 (normalize3 v) := by
  have hq : 0 < dot3 v v := dot3_self_pos v hv
  have hs : Real.sqrt (dot3 v v) ≠ 0 := ne_of_gt (Real.sqrt_pos.mpr hq)
  unfold unit3 normalize3
  rw [dot3_smul_left, dot3_smul_right, ← mul_assoc]
  rw [div_mul_div_comm, one_mul, Real.mul_self_sqrt hq.le]
  field_simp

/-- Dot product after normalization on the left. -/
theorem dot3_normalize_left (v w : RVec3) :
    dot3 (normalize3 v) w = 1 / Real.sqrt (dot3 v v) * dot3 v w := by
  rw [normalize3, dot3_smul_left]

/-- Projection off a unit vector is orthogonal to it. -/
theorem projOff_dot (a n : RVec3) (hn : unit3 n) : dot3 (projOff a n) n = 0 := by
  unfold unit3 at hn
  unfold projOff
  rw [dot3_sub_left, dot3_smul_left, hn, mul_one, sub_self]

/-- Projection off `n` fixes vectors already orthogonal to `n`. -/
theorem projOff_of_orth (a n : RVec3) (h : dot3 a n = 0) : projOff a n = a := by
  unfold projOff
  rw [h]
  rcases a with ⟨ax, ay, az⟩
  rcases n with ⟨nx, ny, nz⟩
  simp [sub3, smul3]

/-- Cross product is orthogonal to its first factor. -/
theorem cross_dot_left (a b : RVec3) : dot3 (cross3 a b) a = 0 := by
  rcases a with ⟨ax, ay, az⟩
  rcases b with ⟨bx, by0, bz⟩
  simp only [dot3, cross3]
  ring

/-- Cross product is orthogonal to its second factor. -/
theorem cross_dot_right (a b : RVec3) : dot3 (cross3 a b) b = 0 := by
  rcases a with ⟨ax, ay, az⟩
  rcases b with ⟨bx, by0, bz⟩
  simp only [dot3, cross3]
  ring

/-- Lagrange identity for the squared norm of a cross product. -/
theorem cross_dot_self (a b : RVec3) :
    dot3 (cross3 a b) (cross3 a b) = dot3 a a * dot3 b b - dot3 a b ^ 2 := by
  rcases a with ⟨ax, ay, az⟩
  rcases b with ⟨bx, by0, bz⟩
  simp only [dot3, cross3]
  ring

/-- Vector difference vanishes exactly when the vectors coincide. -/
theorem sub3_eq_zero_iff (a b : RVec3) : sub3 a b = zero3 ↔ a = b := by
  rcases a with ⟨ax, ay, az⟩
  rcases b with ⟨bx, by0, bz⟩
  simp [sub3, zero3, RVec3.mk.injEq, sub_eq_zero]

/-- A successful chooseH yields a unit vector orthogonal to the normal. -/
theorem chooseH_ok (n : RVec3) (hOpt : Option RVec3) (h : RVec3)
    (hn : unit3 n) (hok : chooseH n hOpt = Except.ok h) :
    unit3 h ∧ dot3 h n = 0 := by
  cases hOpt with
  | none =>
    by_cases hz : projOff refAxis1 n = zero3
    · have hh : h = normalize3 (projOff refAxis2 n) := by
        simp [chooseH, hz] at hok
        exact hok.symm
      subst hh
      have hkey : projOff refAxis2 n ≠ zero3 := by
        have he1 : refAxis1 = smul3 (dot3 refAxis1 n) n := by
          have hsub := hz
          unfold projOff at hsub
          rwa [sub3_eq_zero_iff] at hsub
        rcases n with ⟨nx, ny, nz⟩
        simp only [refAxis1, dot3, smul3, RVec3.mk.injEq] at he1
        obtain ⟨g1, g2, g3⟩ := he1
        have hc1 : nx * nx = 1 := by linear_combination -g1
        have hc2 : nx * ny = 0 := by linear_combination -g2
        have hny : ny = 0 := by
          calc ny = nx * nx * ny := by rw [hc1]; ring
            _ = nx * (nx * ny) := by ring
            _ = 0 := by rw [hc2]; ring
        intro hE
        unfold projOff at hE
        rw [sub3_eq_zero_iff] at hE
        simp only [refAxis2, dot3, smul3, RVec3.mk.injEq] at hE
        obtain ⟨k1, k2, k3⟩ := hE
        rw [hny] at k2
        norm_num at k2
      constructor
      · exact unit3_normalize _ hkey
      · rw [dot3_normalize_left, projOff_dot _ _ hn, mul_zero]
    · have hh : h = normalize3 (projOff refAxis1 n) := by
        simp [chooseH, hz] at hok
        exact hok.symm
      subst hh
      constructor
      · exact unit3_normalize _ hz
      · rw [dot3_normalize_left, projOff_dot _ _ hn, mul_zero]
  | some hs =>
    by_cases hz : projOff hs n = zero3
    · simp [chooseH, hz] at hok
    · have hh : h = normalize3 (projOff hs n) := by
        simp [chooseH, hz] at hok
        exact hok.symm
      subst hh
      constructor
      · exact unit3_normalize _ hz
      · rw [dot3_normalize_left, projOff_dot _ _ hn, mul_zero]

/-- A successful chooseV yields a unit vector orthogonal to the normal. -/
theorem chooseV_ok (n h v : RVec3) (vOpt : Option RVec3)
    (hn : unit3 n) (hh : unit3 h) (hhn : dot3 h n = 0)
    (hok : chooseV n h vOpt = Except.ok v) :
    unit3 v ∧ dot3 v n = 0 := by
  cases vOpt with
  | none =>
    have hv : v = normalize3 (cross3 n h) := by
      simp [chooseV] at hok
      exact hok.symm
    subst hv
    have hc : dot3 (cross3 n h) (cross3 n h) = 1 := by
      rw [cross_dot_self]
      unfold unit3 at hn hh
      rw [hn, hh, dot3_comm n h, hhn]
      norm_num
    have hne : cross3 n h ≠ zero3 := by
      intro hE
      rw [hE] at hc
      simp [dot3, zero3] at hc
    constructor
    · exact unit3_normalize _ hne
    · rw [dot3_normalize_left, cross_dot_left, mul_zero]
  | some vs =>
    by_cases hz : projOff vs n = zero3
    · simp [chooseV, hz] at hok
    · have hv : v = normalize3 (projOff vs n) := by
        simp [chooseV, hz] at hok
        exact hok.symm
      subst hv
      constructor
      · exact unit3_normalize _ hz
      · rw [dot3_normalize_left, projOff_dot _ _ hn, mul_zero]

/-- Inversion of a successful frame construction. -/
theorem buildFrame_ok_inv (s0 d0 : RVec3) (hOpt vOpt : Option RVec3) (f : Frame)
    (hok : buildFrame s0 d0 hOpt vOpt = Except.ok f) :
    s0 ≠ d0 ∧ f.n = normalize3 (sub3 d0 s0) ∧
      chooseH f.n hOpt = Except.ok f.h ∧ chooseV f.n f.h vOpt = Except.ok f.v := by
  by_cases hsd : s0 = d0
  · simp [buildFrame, hsd] at hok
  · simp only [buildFrame, if_neg hsd] at hok
    split at hok
    · exact absurd hok (by simp)
    · rename_i h hH
      split at hok
      · exact absurd hok (by simp)
      · rename_i v hV
        simp only [Except.ok.injEq] at hok
        subst hok
        exact ⟨hsd, rfl, hH, hV⟩

/-- Claim C8: every successful GeometryFrame construction, including with
direction overrides of arbitrary nonzero length, yields unit-length n, h,
v; with no overrides the triad is orthonormal with n equal to
normalize (detector - source); and explicitly supplied h/v orthogonal to
the axis come back normalized but otherwise unchanged. -/
theorem claim8_geometry_frame_invariants :
    (∀ (s0 d0 : RVec3) (hOpt vOpt : Option RVec3) (f : Frame),
      buildFrame s0 d0 hOpt vOpt = Except.ok f →
      unit3 f.n ∧ unit3 f.h ∧ unit3 f.v) ∧
    (∀ (s0 d0 : RVec3) (f : Frame),
      buildFrame s0 d0 none none = Except.ok f →
      f.n = normalize3 (sub3 d0 s0) ∧ dot3 f.n f.h = 0 ∧ dot3 f.n f.v = 0 ∧
        dot3 f.h f.v = 0) ∧
    (∀ (s0 d0 hs vs : RVec3) (f : Frame),
      buildFrame s0 d0 (some hs) (some vs) = Except.ok f →
      dot3 hs (normalize3 (sub3 d0 s0)) = 0 →
      dot3 vs (normalize3 (sub3 d0 s0)) = 0 →
      f.h = normalize3 hs ∧ f.v = normalize3 vs) := by
  have frameCore : ∀ (s0 d0 : RVec3) (hOpt vOpt : Option RVec3) (f : Frame),
      buildFrame s0 d0 hOpt vOpt = Except.ok f →
      unit3 f.n ∧ (unit3 f.h ∧ dot3 f.h f.n = 0) ∧ (unit3 f.v ∧ dot3 f.v f.n = 0) := by
    intro s0 d0 hOpt vOpt f hok
    obtain ⟨hsd, hnf, hH, hV⟩ := buildFrame_ok_inv s0 d0 hOpt vOpt f hok
    have hnu : unit3 f.n := by
      rw [hnf]
      refine unit3_normalize _ ?_
      rw [Ne, sub3_eq_zero_iff]
      exact fun hE => hsd hE.symm
    obtain ⟨hhu, hho⟩ := chooseH_ok f.n hOpt f.h hnu hH
    obtain ⟨hvu, hvo⟩ := chooseV_ok f.n f.h f.v vOpt hnu hhu hho hV
    exact ⟨hnu, ⟨hhu, hho⟩, hvu, hvo⟩
  refine ⟨?_, ?_, ?_⟩
  · intro s0 d0 hOpt vOpt f hok
    obtain ⟨hnu, ⟨hhu, _⟩, hvu, _⟩ := frameCore s0 d0 hOpt vOpt f hok
    exact ⟨hnu, hhu, hvu⟩
  · intro s0 d0 f hok
    obtain ⟨hsd, hnf, hH, hV⟩ := buildFrame_ok_inv s0 d0 none none f hok
    obtain ⟨hnu, ⟨hhu, hho⟩, hvu, hvo⟩ := frameCore s0 d0 none none f hok
    have hfv : f.v = normalize3 (cross3 f.n f.h) := by
      simp only [chooseV, Except.ok.injEq] at hV
      exact hV.symm
    refine ⟨hnf, by rw [dot3_comm]; exact hho, by rw [dot3_comm]; exact hvo, ?_⟩
    rw [hfv, dot3_comm, dot3_normalize_left, cross_dot_right, mul_zero]
  · intro s0 d0 hs vs f hok hhs hvs
    obtain ⟨hsd, hnf, hH, hV⟩ := buildFrame_ok_inv s0 d0 (some hs) (some vs) f hok
    rw [← hnf] at hhs hvs
    constructor
    · simp only [chooseH, projOff_of_orth hs f.n hhs] at hH
      by_cases hz : hs = zero3
      · rw [if_pos hz] at hH
        cases hH
      · rw [if_neg hz] at hH
        simp only [Except.ok.injEq] at hH
        exact hH.symm
    · simp only [chooseV, projOff_of_orth vs f.n hvs] at hV
      by_cases hz : vs = zero3
      · rw [if_pos hz] at hV
        cases hV
      · rw [if_neg hz] at hV
        simp only [Except.ok.injEq] at hV
        exact hV.symm

/-- Square root of nine is three. -/
theorem sqrt_nine : Real.sqrt 9 = 3 := by
  rw [show (9 : ℝ) = 3 ^ 2 by norm_num, Real.sqrt_sq (by norm_num : (0 : ℝ) ≤ 3)]

/-- Square root of four is two. -/
theorem sqrt_four : Real.sqrt 4 = 2 := by
  rw [show (4 : ℝ) = 2 ^ 2 by norm_num, Real.sqrt_sq (by norm_num : (0 : ℝ) ≤ 2)]

/-- Square root of twenty-five is five. -/
theorem sqrt_twentyfive : Real.sqrt 25 = 5 := by
  rw [show (25 : ℝ) = 5 ^ 2 by norm_num, Real.sqrt_sq (by norm_num : (0 : ℝ) ≤ 5)]

/-- The sample normal direction evaluates to the y unit vector. -/
theorem nb_normal_eval : normalize3 (sub3 nbRD nbRS) = RVec3.mk 0 1 0 := by
  have h9 : (dot3 (sub3 nbRD nbRS) (sub3 nbRD nbRS)) = 9 := by
    norm_num [dot3, sub3, nbRD, nbRS]
  rw [normalize3, h9, sqrt_nine]
  ext <;> norm_num [smul3, sub3, nbRD, nbRS]

/-- The default frame construction on the sample points evaluates to the
sample frame. -/
theorem nb_buildFrame_eval : buildFrame nbRS nbRD none none = Except.ok nbFrame := by
  have hne : nbRS ≠ nbRD := by
    intro hE
    have := congrArg RVec3.y hE
    norm_num [nbRS, nbRD] at this
  have hp1 : projOff refAxis1 (RVec3.mk 0 1 0) = RVec3.mk 1 0 0 := by
    ext <;> norm_num [projOff, refAxis1, dot3, smul3, sub3]
  have hp1ne : RVec3.mk 1 0 0 ≠ zero3 := by
    intro hE
    have := congrArg RVec3.x hE
    norm_num [zero3] at this
  have hn1 : normalize3 (RVec3.mk 1 0 0) = RVec3.mk 1 0 0 := by
    have h1 : dot3 (RVec3.mk 1 0 0) (RVec3.mk 1 0 0) = 1 := by norm_num [dot3]
    rw [normalize3, h1, Real.sqrt_one]
    ext <;> norm_num [smul3]
  have hH : chooseH (RVec3.mk 0 1 0) none = Except.ok (RVec3.mk 1 0 0) := by
    rw [chooseH, hp1, if_neg hp1ne, hn1]
  have hcr : cross3 (RVec3.mk 0 1 0) (RVec3.mk 1 0 0) = RVec3.mk 0 0 (-1) := by
    ext <;> norm_num [cross3]
  have hnm : normalize3 (RVec3.mk 0 0 (-1)) = RVec3.mk 0 0 (-1) := by
    have h1 : dot3 (RVec3.mk 0 0 (-1)) (RVec3.mk 0 0 (-1)) = 1 := by norm_num [dot3]
    rw [normalize3, h1, Real.sqrt_one]
    ext <;> norm_num [smul3]
  have hV : chooseV (RVec3.mk 0 1 0) (RVec3.mk 1 0 0) none = Except.ok (RVec3.mk 0 0 (-1)) := by
    rw [chooseV, hcr, hnm]
  rw [buildFrame, if_neg hne]
  simp only [nb_normal_eval, hH, hV]
  rfl

/-- The override frame construction on the sample points evaluates to the
sample override frame. -/
theorem nb_buildFrame_ov_eval :
    buildFrame nbRS nbRD (some nbHs) (some nbVs) = Except.ok nbFrameOv := by
  have hne : nbRS ≠ nbRD := by
    intro hE
    have := congrArg RVec3.y hE
    norm_num [nbRS, nbRD] at this
  have hph : projOff nbHs (RVec3.mk 0 1 0) = RVec3.mk 2 0 0 := by
    ext <;> norm_num [projOff, nbHs, dot3, smul3, sub3]
  have hphne : RVec3.mk 2 0 0 ≠ zero3 := by
    intro hE
    have := congrArg RVec3.x hE
    norm_num [zero3] at this
  have hnh : normalize3 (RVec3.mk 2 0 0) = RVec3.mk 1 0 0 := by
    have h4 : dot3 (RVec3.mk 2 0 0) (RVec3.mk 2 0 0) = 4 := by norm_num [dot3]
    rw [normalize3, h4, sqrt_four]
    ext <;> norm_num [smul3]
  have hH : chooseH (RVec3.mk 0 1 0) (some nbHs) = Except.ok (RVec3.mk 1 0 0) := by
    rw [chooseH, hph, if_neg hphne, hnh]
  have hpv : projOff nbVs (RVec3.mk 0 1 0) = RVec3.mk 0 0 5 := by
    ext <;> norm_num [projOff, nbVs, dot3, smul3, sub3]
  have hpvne : RVec3.mk 0 0 5 ≠ zero3 := by
    intro hE
    have := congrArg RVec3.z hE
    norm_num [zero3] at this
  have hnv : normalize3 (RVec3.mk 0 0 5) = RVec3.mk 0 0 1 := by
    have h25 : dot3 (RVec3.mk 0 0 5) (RVec3.mk 0 0 5) = 25 := by norm_num [dot3]
    rw [normalize3, h25, sqrt_twentyfive]
    ext <;> norm_num [smul3]
  have hV : chooseV (RVec3.mk 0 1 0) (RVec3.mk 1 0 0) (some nbVs) = Except.ok (RVec3.mk 0 0 1) := by
    rw [chooseV, hpv, if_neg hpvne, hnv]
  rw [buildFrame, if_neg hne]
  simp only [nb_normal_eval, hH, hV]
  rfl

/-- Claim C8 witness: the frame invariants applied to the concrete sample
geometry, without and with direction overrides. -/
theorem claim8_geometry_frame_invariants_witness :
    buildFrame nbRS nbRD none none = Except.ok nbFrame ∧
    (unit3 nbFrame.n ∧ unit3 nbFrame.h ∧ unit3 nbFrame.v) ∧
    (nbFrame.n = normalize3 (sub3 nbRD nbRS) ∧ dot3 nbFrame.n nbFrame.h = 0 ∧
      dot3 nbFrame.n nbFrame.v = 0 ∧ dot3 nbFrame.h nbFrame.v = 0) ∧
    buildFrame nbRS nbRD (some nbHs) (some nbVs) = Except.ok nbFrameOv ∧
    dot3 nbHs (normalize3 (sub3 nbRD nbRS)) = 0 ∧
    dot3 nbVs (normalize3 (sub3 nbRD nbRS)) = 0 ∧
    (nbFrameOv.h = normalize3 nbHs ∧ nbFrameOv.v = normalize3 nbVs) := by
  have hok1 := nb_buildFrame_eval
  have hok2 := nb_buildFrame_ov_eval
  have hhs : dot3 nbHs (normalize3 (sub3 nbRD nbRS)) = 0 := by
    rw [nb_normal_eval]
    norm_num [dot3, nbHs]
  have hvs : dot3 nbVs (normalize3 (sub3 nbRD nbRS)) = 0 := by
    rw [nb_normal_eval]
    norm_num [dot3, nbVs]
  exact ⟨hok1, claim8_geometry_frame_invariants.1 nbRS nbRD none none nbFrame hok1,
    claim8_geometry_frame_invariants.2.1 nbRS nbRD nbFrame hok1, hok2, hhs, hvs,
    claim8_geometry_frame_invariants.2.2 nbRS nbRD nbHs nbVs nbFrameOv hok2 hhs hvs⟩

/-- Claim C9: create_particles draws the polar angle with probability
weight proportional to the sine of the angle and the azimuth uniformly
over [0, 2 pi): the probability mass inside any sub-cone equals its
share of the solid angle (uniform in solid angle), the total mass is one,
the density is a positive multiple of the sine (hence vanishes on the
axis rather than being uniform in the angle), and the azimuth sample
stays in [0, 2 pi). -/
theorem claim9_solid_angle_uniform (thetaMax t u : ℝ)
    (h1 : 0 < thetaMax) (h2 : thetaMax ≤ Real.pi / 2)
    (h3 : 0 ≤ t) (h4 : t ≤ thetaMax) (h5 : 0 ≤ u) (h6 : u < 1) :
    (∫ x in (0:ℝ)..t, thetaPdf thetaMax x) =
      solidAngleOfCone t / solidAngleOfCone thetaMax ∧
    (∫ x in (0:ℝ)..thetaMax, thetaPdf thetaMax x) = 1 ∧
    (∀ x, thetaPdf thetaMax x = 1 / (1 - Real.cos thetaMax) * Real.sin x) ∧
    0 < 1 / (1 - Real.cos thetaMax) ∧
    thetaPdf thetaMax 0 = 0 ∧
    0 < thetaPdf thetaMax thetaMax ∧
    (0 ≤ phiSample u ∧ phiSample u < 2 * Real.pi) := by
  have hpi : thetaMax < Real.pi := lt_of_le_of_lt h2 (by linarith [Real.pi_pos])
  have hcos : Real.cos thetaMax < 1 := by
    have := Real.cos_lt_cos_of_nonneg_of_le_pi (le_refl 0) hpi.le h1
    simpa using this
  have hden : 0 < 1 - Real.cos thetaMax := by linarith
  have hsin : 0 < Real.sin thetaMax := Real.sin_pos_of_pos_of_lt_pi h1 hpi
  have h2pi : 0 < 2 * Real.pi := Real.two_pi_pos
  have hint : ∀ s : ℝ, (∫ x in (0:ℝ)..s, thetaPdf thetaMax x) =
      (1 - Real.cos s) / (1 - Real.cos thetaMax) := by
    intro s
    unfold thetaPdf
    rw [intervalIntegral.integral_div, integral_sin, Real.cos_zero]
  refine ⟨?_, ?_, ?_, ?_, ?_, ?_, ?_, ?_⟩
  · rw [hint t]
    unfold solidAngleOfCone
    rw [mul_div_mul_left _ _ (ne_of_gt h2pi)]
  · rw [hint thetaMax]
    field_simp
  · intro x
    unfold thetaPdf
    ring
  · exact div_pos zero_lt_one hden
  · unfold thetaPdf
    rw [Real.sin_zero, zero_div]
  · exact div_pos hsin hden
  · unfold phiSample
    exact mul_nonneg h2pi.le h5
  · unfold phiSample
    nlinarith

/-- Claim C9 witness: the solid-angle law applied with a cone half-angle
of pi over two, a sub-cone of pi over four, and azimuth seed one half. -/
theorem claim9_solid_angle_uniform_witness :
    (0 < Real.pi / 2) ∧
    ((∫ x in (0:ℝ)..(Real.pi / 4), thetaPdf (Real.pi / 2) x) =
      solidAngleOfCone (Real.pi / 4) / solidAngleOfCone (Real.pi / 2)) ∧
    (∫ x in (0:ℝ)..(Real.pi / 2), thetaPdf (Real.pi / 2) x) = 1 ∧
    (0 ≤ phiSample (1 / 2) ∧ phiSample (1 / 2) < 2 * Real.pi) := by
  have hp := Real.pi_pos
  have h1 : 0 < Real.pi / 2 := by linarith
  have main := claim9_solid_angle_uniform (Real.pi / 2) (Real.pi / 4) (1 / 2) h1
    (le_refl _) (by linarith) (by linarith) (by norm_num) (by norm_num)
  exact ⟨h1, main.1, main.2.1, main.2.2.2.2.2.2⟩

end Radiography
